import Mathlib

set_option linter.unusedVariables false

/-! Verification development for the augmented-rpc JSON-RPC proxy.

The definitions below are a shallow embedding of the request-processing
pipeline: JSON values, the inflight-fingerprint function, the
archive-fallback predicate of the request router, the cacheability policy,
block-tag normalization, the primary/fallback upstream phase with its cache
write, the in-flight coalescer, the batch dispatcher and the per-network
circuit-breaker map. -/

/-- JSON values as delivered by a JSON body parser.  Numbers are modelled as
integers (all values appearing in the pipeline are ids and block numbers). -/
inductive Json where
  | null : Json
  | bool (b : Bool) : Json
  | num (n : Int) : Json
  | str (s : String) : Json
  | arr (elems : List Json) : Json
  | obj (entries : List (String × Json)) : Json

mutual

/-- Decidable equality on JSON values (the deriving handler does not cover
nested inductives). -/
def jsonDecEq : (a b : Json) → Decidable (a = b)
  | Json.null, Json.null => isTrue rfl
  | Json.null, Json.bool _ => isFalse nofun
  | Json.null, Json.num _ => isFalse nofun
  | Json.null, Json.str _ => isFalse nofun
  | Json.null, Json.arr _ => isFalse nofun
  | Json.null, Json.obj _ => isFalse nofun
  | Json.bool _, Json.null => isFalse nofun
  | Json.bool x, Json.bool y =>
    match decEq x y with
    | isTrue h => isTrue (h ▸ rfl)
    | isFalse h => isFalse (fun hh => h (Json.bool.inj hh))
  | Json.bool _, Json.num _ => isFalse nofun
  | Json.bool _, Json.str _ => isFalse nofun
  | Json.bool _, Json.arr _ => isFalse nofun
  | Json.bool _, Json.obj _ => isFalse nofun
  | Json.num _, Json.null => isFalse nofun
  | Json.num _, Json.bool _ => isFalse nofun
  | Json.num x, Json.num y =>
    match decEq x y with
    | isTrue h => isTrue (h ▸ rfl)
    | isFalse h => isFalse (fun hh => h (Json.num.inj hh))
  | Json.num _, Json.str _ => isFalse nofun
  | Json.num _, Json.arr _ => isFalse nofun
  | Json.num _, Json.obj _ => isFalse nofun
  | Json.str _, Json.null => isFalse nofun
  | Json.str _, Json.bool _ => isFalse nofun
  | Json.str _, Json.num _ => isFalse nofun
  | Json.str x, Json.str y =>
    match decEq x y with
    | isTrue h => isTrue (h ▸ rfl)
    | isFalse h => isFalse (fun hh => h (Json.str.inj hh))
  | Json.str _, Json.arr _ => isFalse nofun
  | Json.str _, Json.obj _ => isFalse nofun
  | Json.arr _, Json.null => isFalse nofun
  | Json.arr _, Json.bool _ => isFalse nofun
  | Json.arr _, Json.num _ => isFalse nofun
  | Json.arr _, Json.str _ => isFalse nofun
  | Json.arr xs, Json.arr ys =>
    match jsonDecEqList xs ys with
    | isTrue h => isTrue (h ▸ rfl)
    | isFalse h => isFalse (fun hh => h (Json.arr.inj hh))
  | Json.arr _, Json.obj _ => isFalse nofun
  | Json.obj _, Json.null => isFalse nofun
  | Json.obj _, Json.bool _ => isFalse nofun
  | Json.obj _, Json.num _ => isFalse nofun
  | Json.obj _, Json.str _ => isFalse nofun
  | Json.obj _, Json.arr _ => isFalse nofun
  | Json.obj xs, Json.obj ys =>
    match jsonDecEqEntries xs ys with
    | isTrue h => isTrue (h ▸ rfl)
    | isFalse h => isFalse (fun hh => h (Json.obj.inj hh))

/-- Decidable equality on JSON arrays. -/
def jsonDecEqList : (a b : List Json) → Decidable (a = b)
  | [], [] => isTrue rfl
  | [], _ :: _ => isFalse nofun
  | _ :: _, [] => isFalse nofun
  | x :: xs, y :: ys =>
    match jsonDecEq x y, jsonDecEqList xs ys with
    | isTrue h1, isTrue h2 => isTrue (h1 ▸ h2 ▸ rfl)
    | isFalse h1, _ => isFalse (fun hh => h1 (List.cons.inj hh).1)
    | _, isFalse h2 => isFalse (fun hh => h2 (List.cons.inj hh).2)

/-- Decidable equality on JSON object entry lists. -/
def jsonDecEqEntries : (a b : List (String × Json)) → Decidable (a = b)
  | [], [] => isTrue rfl
  | [], _ :: _ => isFalse nofun
  | _ :: _, [] => isFalse nofun
  | (k1, v1) :: xs, (k2, v2) :: ys =>
    match decEq k1 k2, jsonDecEq v1 v2, jsonDecEqEntries xs ys with
    | isTrue h1, isTrue h2, isTrue h3 => isTrue (by rw [h1, h2, h3])
    | isFalse h1, _, _ =>
      isFalse (fun hh => h1 (congrArg Prod.fst (List.cons.inj hh).1))
    | _, isFalse h2, _ =>
      isFalse (fun hh => h2 (congrArg Prod.snd (List.cons.inj hh).1))
    | _, _, isFalse h3 => isFalse (fun hh => h3 (List.cons.inj hh).2)

end

instance : DecidableEq Json := jsonDecEq

/-- A parsed JSON-RPC request: `jsonrpc` is constant and elided; `params`
is the positional-parameter array (`none` models an absent/null field). -/
structure JSONRPCRequest where
  method : String
  params : Option (List Json)
  id : Option Json
deriving DecidableEq

/-- A JSON-RPC error object. -/
structure RPCError where
  code : Int
  message : String
  data : Option Json
deriving DecidableEq

/-- A parsed JSON-RPC response body.  `result = none` models an absent
`result` field (as in an error reply); `result = some Json.null` models a
literal `null` result. -/
structure JSONRPCResponse where
  id : Option Json
  result : Option Json
  error : Option RPCError
deriving DecidableEq

/-- A thrown transport error (a JS `Error`): its `message` string and the
optional `data` string some HTTP clients attach. -/
structure TransportError where
  message : String
  data : Option String
deriving DecidableEq

/-- Outcome of one `httpClient.makeRequest` call.  Modelled from the spec:
the HTTP upstream client (src module `@/client` is not in the snapshot)
returns the parsed JSON-RPC body on transport success — a body carrying an
`error` member is a valid protocol reply, not a throw — and throws only on
transport failure (connection errors, timeouts, exhausted retries). -/
inductive UpstreamOutcome where
  | reply (body : JSONRPCResponse) : UpstreamOutcome
  | tfail (e : TransportError) : UpstreamOutcome
deriving DecidableEq

/-! String helpers mirroring the JavaScript primitives used by the source. -/

/-- Lowercase one ASCII character. -/
def lowerChar (c : Char) : Char :=
  if 65 ≤ c.toNat ∧ c.toNat ≤ 90 then Char.ofNat (c.toNat + 32) else c

/-- Lowercase a string (JS `String.prototype.toLowerCase` on ASCII data). -/
def lowerStr (s : String) : String := ⟨s.data.map lowerChar⟩

/-- Suffix of `hay` strictly after the first occurrence of `needle`
(`none` when `needle` does not occur).  JS `includes` is its `isSome`. -/
def dropAfterFirst (needle : List Char) : List Char → Option (List Char)
  | [] => if needle.isEmpty then some [] else none
  | c :: t =>
    if needle.isPrefixOf (c :: t) then some ((c :: t).drop needle.length)
    else dropAfterFirst needle t

/-- JS `hay.includes(needle)`. -/
def containsSubstr (needle hay : String) : Bool :=
  (dropAfterFirst needle.data hay.data).isSome

/-- JS `hay.startsWith(pre)`. -/
def strStartsWith (hay pre : String) : Bool :=
  pre.data.isPrefixOf hay.data

/-- Matcher for the router's regular expressions: every pattern used by the
source is a list of literal segments separated by `.*`, so `test` holds
exactly when the segments occur in order.  Taking the earliest occurrence of
each segment is complete for this pattern class. -/
def matchSegs : List String → List Char → Bool
  | [], _ => true
  | s :: rest, hay =>
    match dropAfterFirst s.data hay with
    | some remaining => matchSegs rest remaining
    | none => false

/-- Join strings with commas (used by both array serializations). -/
def joinComma : List String → String
  | [] => ""
  | [s] => s
  | s :: rest => s ++ "," ++ joinComma rest

/-- JSON string escaping as performed by `JSON.stringify`. -/
def escapeChar (c : Char) : List Char :=
  if c = '"' then ['\\', '"']
  else if c = '\\' then ['\\', '\\']
  else if c = '\n' then ['\\', 'n']
  else if c = '\r' then ['\\', 'r']
  else if c = '\t' then ['\\', 't']
  else if c = '\x08' then ['\\', 'b']
  else if c = '\x0c' then ['\\', 'f']
  else if c.toNat < 0x20 then
    let lowNibble := c.toNat % 16
    let highNibble := c.toNat / 16
    let hexOf := fun (d : Nat) => if d < 10 then Char.ofNat (48 + d) else Char.ofNat (87 + d)
    ['\\', 'u', '0', '0', hexOf highNibble, hexOf lowNibble]
  else [c]

/-- Escape every character of a string for a JSON string literal. -/
def escapeStr (s : String) : String :=
  ⟨s.data.flatMap escapeChar⟩

/-- A JSON string literal: quotes around the escaped body. -/
def quoteStr (s : String) : String := "\"" ++ escapeStr s ++ "\""

/-- The sixteen lowercase hex digits. -/
def hexDigits : List Char := "0123456789abcdef".data

/-- The hex digit of a value below 16. -/
def hexDigitChar (d : Nat) : Char := hexDigits.getD d '0'

/-- JS number-to-hex conversion `n.toString(16)`, via a structural fuel
(the fuel `n + 1` always suffices since the argument is divided by 16). -/
def toHexAux : Nat → Nat → List Char → List Char
  | 0, _, acc => acc
  | _ + 1, 0, acc => acc
  | fuel + 1, n + 1, acc =>
    toHexAux fuel ((n + 1) / 16) (hexDigitChar ((n + 1) % 16) :: acc)

/-- JS `n.toString(16)` for a nonnegative integer block number. -/
def toHex (n : Nat) : String :=
  if n = 0 then "0" else ⟨toHexAux (n + 1) n []⟩

mutual

/-- JS template-literal coercion of a value (the semantics of
`String(v)` in a template literal): scalars print plainly, arrays join
their elements with commas, plain objects print as `[object Object]`. -/
def jsToString : Json → String
  | Json.null => "null"
  | Json.bool b => if b then "true" else "false"
  | Json.num n => toString n
  | Json.str s => s
  | Json.arr xs => jsToStringElems xs
  | Json.obj _ => "[object Object]"

/-- `Array.prototype.toString`: elements joined with `,`, where a `null`
element prints as the empty string. -/
def jsToStringElems : List Json → String
  | [] => ""
  | [Json.null] => ""
  | [x] => jsToString x
  | Json.null :: rest => "," ++ jsToStringElems rest
  | x :: rest => jsToString x ++ "," ++ jsToStringElems rest

end

mutual

/-- `JSON.stringify` with no spacing: object keys keep insertion order. -/
def jsonStringify : Json → String
  | Json.null => "null"
  | Json.bool b => if b then "true" else "false"
  | Json.num n => toString n
  | Json.str s => quoteStr s
  | Json.arr xs => "[" ++ joinComma (jsonStringifyList xs) ++ "]"
  | Json.obj kvs => "\x7b" ++ joinComma (jsonStringifyEntries kvs) ++ "\x7d"

/-- Serialized elements of an array, in order. -/
def jsonStringifyList : List Json → List String
  | [] => []
  | x :: rest => jsonStringify x :: jsonStringifyList rest

/-- Serialized `"key":value` members of an object, in insertion order. -/
def jsonStringifyEntries : List (String × Json) → List String
  | [] => []
  | (k, v) :: rest => (quoteStr k ++ ":" ++ jsonStringify v) :: jsonStringifyEntries rest

end

/-- Code-unit comparison of strings, used to sort object keys in the
canonical serialization. -/
def charListLe : List Char → List Char → Bool
  | [], _ => true
  | _ :: _, [] => false
  | a :: as, b :: bs =>
    if a.toNat < b.toNat then true
    else if b.toNat < a.toNat then false
    else charListLe as bs

/-- Insert a serialized object member into a key-sorted list. -/
def insertSortedEntry (kv : String × String) : List (String × String) → List (String × String)
  | [] => [kv]
  | h :: t =>
    if charListLe kv.1.data h.1.data then kv :: h :: t else h :: insertSortedEntry kv t

/-- Sort serialized object members by key (insertion sort). -/
def sortStrEntries (l : List (String × String)) : List (String × String) :=
  l.foldr insertSortedEntry []

mutual

/-- Modelled from the spec: the deterministic canonical-JSON form required
by §4.1 step 2 — sorted object keys, no insignificant whitespace. -/
def canonicalJsonStr : Json → String
  | Json.null => "null"
  | Json.bool b => if b then "true" else "false"
  | Json.num n => toString n
  | Json.str s => quoteStr s
  | Json.arr xs => "[" ++ joinComma (canonicalJsonList xs) ++ "]"
  | Json.obj kvs =>
    "\x7b" ++
      joinComma ((sortStrEntries (canonicalJsonEntries kvs)).map
        (fun kv => quoteStr kv.1 ++ ":" ++ kv.2)) ++ "\x7d"

/-- Canonical serializations of array elements, in order. -/
def canonicalJsonList : List Json → List String
  | [] => []
  | x :: rest => canonicalJsonStr x :: canonicalJsonList rest

/-- Keys paired with canonical serializations of their values, in
insertion order (sorted afterwards). -/
def canonicalJsonEntries : List (String × Json) → List (String × String)
  | [] => []
  | (k, v) :: rest => (k, canonicalJsonStr v) :: canonicalJsonEntries rest

end

/-! The request fingerprint (`RPCProxy.generateInflightKey`). -/

/-- `RPCProxy.generateInflightKey`: the in-flight/dedup fingerprint.  The
source takes `request.params || []`, returns `keyPrefix + method` for an
empty list, `keyPrefix + method + ":" + params[0]` (template-literal
coercion) for a single element, and
`keyPrefix + method + ":" + JSON.stringify(params)` otherwise. -/
def generateInflightKey (kpfx : String) (request : JSONRPCRequest) : String :=
  match request.params.getD [] with
  | [] => kpfx ++ request.method
  | [p] => kpfx ++ request.method ++ ":" ++ jsToString p
  | ps => kpfx ++ request.method ++ ":" ++ jsonStringify (Json.arr ps)

/-! The request router (`RequestRouter.shouldFallbackToArchive`). -/

/-- The ten literal archive-error substrings of
`RequestRouter.shouldFallbackToArchive`. -/
def archiveErrorPatterns : List String :=
  ["block not found", "transaction not found", "receipt not found",
   "logs not found", "state not found", "data not available",
   "block range not available", "historical data not available",
   "only recent blocks available", "archive node required"]

/-- The five block-tolerance regular expressions, each split on `.*` into
its literal segments. -/
def blockTolerancePatterns : List (List String) :=
  [["block", "returned", "is after", "last block"],
   ["non-deterministic error"],
   ["block", "is after", "requested range"],
   ["block ordering error"],
   ["deterministic error"]]

/-- Lowercased `error.message` (empty when no error was thrown). -/
def errMsgOf : Option TransportError → String
  | some e => lowerStr e.message
  | none => ""

/-- Lowercased `error.data` (empty when absent or no error was thrown). -/
def errDataOf : Option TransportError → String
  | some e => lowerStr (e.data.getD "")
  | none => ""

/-- Does either error string contain one of the archive-error substrings. -/
def needsArchive (em ed : String) : Bool :=
  archiveErrorPatterns.any (fun p => containsSubstr p em || containsSubstr p ed)

/-- Does either error string match one of the block-tolerance regexes. -/
def hasBlockToleranceIssue (em ed : String) : Bool :=
  blockTolerancePatterns.any (fun segs => matchSegs segs em.data || matchSegs segs ed.data)

/-- Is the request `eth_getBlockByNumber` for a specific hex block number:
`params[0]` a string starting with `0x` and distinct from
`latest`/`pending` (lines 67-74 of the router). -/
def isSpecificHexBlockReq (request : JSONRPCRequest) : Bool :=
  request.method == "eth_getBlockByNumber" &&
    (match (request.params.getD [])[0]? with
     | some (Json.str s) => strStartsWith s "0x" && s != "latest" && s != "pending"
     | _ => false)

/-- The null-result conditions of `shouldFallbackToArchive` (its early
returns inside `if (response && response.result === null)`). -/
def nullResultCond (request : JSONRPCRequest) (response : Option JSONRPCResponse) : Bool :=
  match response with
  | some resp =>
    (match resp.result with
     | some Json.null => true
     | _ => false) &&
      (isSpecificHexBlockReq request ||
       request.method == "eth_getLogs" ||
       request.method == "eth_getTransactionReceipt")
  | none => false

/-- Is the request an `eth_call` whose `params[1]` is the string
`"latest"` (lines 124-128 of the router). -/
def isEthCallLatest (request : JSONRPCRequest) : Bool :=
  request.method == "eth_call" &&
    (match request.params with
     | some ps =>
       decide (2 ≤ ps.length) &&
         (match ps[1]? with
          | some (Json.str s) => s == "latest"
          | _ => false)
     | none => false)

/-- `RequestRouter.shouldFallbackToArchive`: null-result conditions first,
then the substring and regex checks over the lowercased error message and
data, with the redundant `eth_call`/`latest` early return, finally
`needsArchive || hasBlockToleranceIssue`. -/
def shouldFallbackToArchive (error : Option TransportError) (request : JSONRPCRequest)
    (response : Option JSONRPCResponse) : Bool :=
  if nullResultCond request response then true
  else
    let em := errMsgOf error
    let ed := errDataOf error
    let na := needsArchive em ed
    let bt := hasBlockToleranceIssue em ed
    if isEthCallLatest request && bt then true
    else na || bt

/-! Cache validity and cache policy (`RPCProxy.isProblematicResponse`,
`RPCProxy.resolveCachePolicyForSubgraph`). -/

/-- `RPCProxy.isProblematicResponse`: empty arrays, empty objects, and
strings containing `error`, `not found` or `unavailable` are not cached. -/
def isProblematicResponse : Json → Bool
  | Json.arr a => a.isEmpty
  | Json.obj kvs => kvs.isEmpty
  | Json.str s =>
    containsSubstr "error" s || containsSubstr "not found" s || containsSubstr "unavailable" s
  | _ => false

/-- Cache time-to-live: a finite age in milliseconds or
`Number.POSITIVE_INFINITY`. -/
inductive CacheTTL where
  | finite (ms : Nat) : CacheTTL
  | infinite : CacheTTL
deriving DecidableEq

/-- Modelled from the spec: `CACHEABLE_METHODS.INFINITELY_CACHEABLE`
(the constants module `@/config/constants` is not in the snapshot);
§4.3 lists the five methods cached forever. -/
def INFINITELY_CACHEABLE : List String :=
  ["eth_chainId", "net_version", "eth_getTransactionReceipt",
   "eth_getTransactionByHash", "eth_getBlockByHash"]

/-- Modelled from the spec: `CACHEABLE_METHODS.TIME_CACHEABLE`
(the constants module `@/config/constants` is not in the snapshot);
§4.3 lists the eight methods cached with the configured TTL. -/
def TIME_CACHEABLE : List String :=
  ["eth_blockNumber", "eth_gasPrice", "eth_getLogs", "eth_call",
   "eth_getBlockByNumber", "eth_getBalance", "eth_getCode", "eth_getStorageAt"]

/-- The first object-typed element of `params`
(`params.find(p => typeof p === 'object' && p !== null)`; arrays are
objects in JS). -/
def findCallObject (ps : List Json) : Option Json :=
  ps.find? fun p =>
    match p with
    | Json.obj _ => true
    | Json.arr _ => true
    | _ => false

/-- Does the call object of an `eth_call` carry a `blockHash` property. -/
def hasBlockHashProp (ps : List Json) : Bool :=
  match findCallObject ps with
  | some (Json.obj kvs) => kvs.any (fun kv => kv.1 == "blockHash")
  | _ => false

/-- Is `params[1]` a truthy string starting with `0x`. -/
def hasHexBlockNumberAt1 (ps : List Json) : Bool :=
  match ps[1]? with
  | some (Json.str s) => !s.data.isEmpty && strStartsWith s "0x"
  | _ => false

/-- `RPCProxy.resolveCachePolicyForSubgraph`: infinitely cacheable methods
get an infinite TTL; time-cacheable methods get `maxAge * 1000` ms except
for the two promotions to infinity (`eth_call` pinned by `blockHash` or a
hex `params[1]`, `eth_getBlockByNumber` with a specific hex block);
everything else is not cacheable. -/
def resolveCachePolicyForSubgraph (maxAge : Nat) (request : JSONRPCRequest) :
    Bool × CacheTTL :=
  if INFINITELY_CACHEABLE.contains request.method then (true, CacheTTL.infinite)
  else if TIME_CACHEABLE.contains request.method then
    if request.method == "eth_call" then
      let ps := request.params.getD []
      if hasBlockHashProp ps || hasHexBlockNumberAt1 ps then (true, CacheTTL.infinite)
      else (true, CacheTTL.finite (maxAge * 1000))
    else if request.method == "eth_getBlockByNumber" then
      let ps := request.params.getD []
      match ps[0]? with
      | some (Json.str s) =>
        if strStartsWith s "0x" && s != "latest" && s != "pending" then
          (true, CacheTTL.infinite)
        else (true, CacheTTL.finite (maxAge * 1000))
      | _ => (true, CacheTTL.finite (maxAge * 1000))
    else (true, CacheTTL.finite (maxAge * 1000))
  else (false, CacheTTL.finite 0)

/-! Block-tag normalization (`RPCProxy.normalizeBlockTags`,
`RPCProxy.getCurrentBlockNumber`). -/

/-- One entry of the per-network block-number cache. -/
structure BlockEntry where
  blockNumber : Nat
  timestamp : Nat
deriving DecidableEq

/-- `RPCProxy.getCurrentBlockNumber`: the cached block number of the
network (key `networkKey || 'default'`) when its entry is younger than
30 seconds, otherwise `null`. -/
def getCurrentBlockNumber (blockNumberCache : List (String × BlockEntry))
    (networkKey : Option String) (now : Nat) : Option Nat :=
  match blockNumberCache.lookup (networkKey.getD "default") with
  | some cached => if now - cached.timestamp < 30000 then some cached.blockNumber else none
  | none => none

/-- `RPCProxy.normalizeBlockTags`: for `eth_call` with at least two
positional params whose `params[1]` is `"latest"` or `"pending"`, rewrite
`params[1]` to `0x` plus the hex of the fresh cached block number; in
every other case (other methods, short params, or a cold/stale
block-number cache) the request is returned unchanged.  The source's
`if (currentBlock)` is a JS truthiness test, so a cached block number of
0 — like `null` — performs no rewrite. -/
def normalizeBlockTags (blockNumberCache : List (String × BlockEntry)) (now : Nat)
    (request : JSONRPCRequest) (networkKey : Option String) : JSONRPCRequest :=
  match request.params with
  | some ps =>
    if request.method == "eth_call" && decide (2 ≤ ps.length) then
      match ps[1]? with
      | some (Json.str s) =>
        if s == "latest" || s == "pending" then
          match getCurrentBlockNumber blockNumberCache networkKey now with
          | some currentBlock =>
            if currentBlock ≠ 0 then
              { request with params := some (ps.set 1 (Json.str ("0x" ++ toHex currentBlock))) }
            else request
          | none => request
        else request
      | _ => request
    else request
  | none => request

/-! The cache key of the pipeline. -/

/-- Modelled from the spec: `CacheManager.getCacheKey` (the cache module
`@/cache` is not in the snapshot).  §4.1 step 2: a canonical serialization
of `(method, params)` — `method` when `params` is absent (and, per the
§8 boundary behavior, when it is the empty array), `method ":" scalar`
for a single scalar, `method ":" canonical-JSON(params)` otherwise. -/
def getCacheKey (request : JSONRPCRequest) : String :=
  match request.params.getD [] with
  | [] => request.method
  | [Json.arr a] => request.method ++ ":" ++ canonicalJsonStr (Json.arr [Json.arr a])
  | [Json.obj o] => request.method ++ ":" ++ canonicalJsonStr (Json.arr [Json.obj o])
  | [p] => request.method ++ ":" ++ jsToString p
  | ps => request.method ++ ":" ++ canonicalJsonStr (Json.arr ps)

/-- The `keyPrefix` of `processSingleRequest`:
`networkKey ? networkKey + ":" : ""`. -/
def keyPrefixOf : Option String → String
  | some k => k ++ ":"
  | none => ""

/-- The cache key computed by `processSingleRequest` lines 415-420:
prefix plus the cache key of the block-tag-normalized request. -/
def cacheKeyFor (blockNumberCache : List (String × BlockEntry)) (now : Nat)
    (networkKey : Option String) (request : JSONRPCRequest) : String :=
  keyPrefixOf networkKey ++
    getCacheKey (normalizeBlockTags blockNumberCache now request networkKey)

/-! The upstream phase of `processSingleRequest` (lines 475-621): primary
call, archive fallback, cache write. -/

/-- The error thrown by `RequestRouter.getFallbackUpstream` when neither a
network fallback nor a global fallback pair is configured. -/
def noFallbackError : TransportError :=
  { message := "No fallback upstream available", data := none }

/-- Is `response.result === null`. -/
def resultIsNull (body : JSONRPCResponse) : Bool :=
  match body.result with
  | some Json.null => true
  | _ => false

/-- The try/catch of `executeRequest` (lines 475-557): call the primary;
on a reply with `result === null` satisfying the router predicate, or on a
thrown transport error satisfying it, call the fallback once.  Returns the
final body or the propagated transport error, the `fallbackUsed` flag, and
the number of HTTP calls made to the fallback upstream. -/
def runUpstream (primary : JSONRPCRequest → UpstreamOutcome)
    (fallback : Option (JSONRPCRequest → UpstreamOutcome))
    (request : JSONRPCRequest) :
    Except TransportError (JSONRPCResponse × Bool) × Nat :=
  match primary request with
  | UpstreamOutcome.reply body =>
    if resultIsNull body && shouldFallbackToArchive none request (some body) then
      match fallback with
      | some fb =>
        match fb request with
        | UpstreamOutcome.reply b2 => (Except.ok (b2, true), 1)
        | UpstreamOutcome.tfail e2 => (Except.error e2, 1)
      | none => (Except.error noFallbackError, 0)
    else (Except.ok (body, false), 0)
  | UpstreamOutcome.tfail e =>
    if shouldFallbackToArchive (some e) request none then
      match fallback with
      | some fb =>
        match fb request with
        | UpstreamOutcome.reply b2 => (Except.ok (b2, true), 1)
        | UpstreamOutcome.tfail e2 => (Except.error e2, 1)
      | none => (Except.error noFallbackError, 0)
    else (Except.error e, 0)

/-- The cache write of lines 597-602: store `rpcData.result` under the
cache key when cacheable, present, not `null` and not problematic. -/
def writeCache (isCacheable : Bool) (cacheKey : String) (cache : List (String × Json))
    (body : JSONRPCResponse) : List (String × Json) :=
  match body.result with
  | some v =>
    if isCacheable && !(v == Json.null) && !(isProblematicResponse v) then
      (cacheKey, v) :: cache
    else cache
  | none => cache

/-- Result of the upstream phase: the settled outcome, whether the
fallback was used, how many fallback HTTP calls were made, and the cache
contents afterwards. -/
structure PhaseResult where
  outcome : Except TransportError JSONRPCResponse
  fallbackUsed : Bool
  fallbackCalls : Nat
  cache : List (String × Json)

/-- The upstream phase followed by the cache write: a thrown error leaves
the cache untouched and rejects the promise; a settled body is returned
after the conditional cache write. -/
def processUpstreamPhase (primary : JSONRPCRequest → UpstreamOutcome)
    (fallback : Option (JSONRPCRequest → UpstreamOutcome))
    (isCacheable : Bool) (cacheKey : String) (cache : List (String × Json))
    (request : JSONRPCRequest) : PhaseResult :=
  match runUpstream primary fallback request with
  | (Except.ok (body, fbUsed), n) =>
    { outcome := Except.ok body, fallbackUsed := fbUsed, fallbackCalls := n,
      cache := writeCache isCacheable cacheKey cache body }
  | (Except.error e, n) =>
    { outcome := Except.error e, fallbackUsed := false, fallbackCalls := n, cache := cache }

/-! The in-flight coalescer (lines 428-438 and 630-637): a map from
fingerprint to the pending promise.  The model below describes the window
in which the first arrival's promise has not yet settled (the source
deletes the entry in `promise.finally`), so later identical arrivals are
handed the stored promise unchanged. -/

/-- One arrival: a hit in the in-flight table returns the stored response
with no upstream call; a miss performs the upstream call and registers
its result under the fingerprint. -/
def coalesceStep (upstream : JSONRPCRequest → JSONRPCResponse)
    (inflight : List (String × JSONRPCResponse)) (kpfx : String)
    (request : JSONRPCRequest) :
    JSONRPCResponse × List (String × JSONRPCResponse) × Nat :=
  let key := generateInflightKey kpfx request
  match inflight.lookup key with
  | some resp => (resp, inflight, 0)
  | none =>
    let resp := upstream request
    (resp, (key, resp) :: inflight, 1)

/-- The responses, final in-flight table and total upstream calls of a
sequence of arrivals all landing before any promise settles. -/
def coalesceRun (upstream : JSONRPCRequest → JSONRPCResponse)
    (inflight : List (String × JSONRPCResponse)) (kpfx : String) :
    List JSONRPCRequest → List JSONRPCResponse × List (String × JSONRPCResponse) × Nat
  | [] => ([], inflight, 0)
  | r :: rest =>
    let step := coalesceStep upstream inflight kpfx r
    let tail := coalesceRun upstream step.2.1 kpfx rest
    (step.1 :: tail.1, tail.2.1, step.2.2 + tail.2.2)

/-! The batch dispatcher (`RPCProxy.processBatchRequests`). -/

/-- Modelled from the spec: `subgraphCacheStrategy.optimizeForSubgraph`
(the module `@/utils/subgraph-cache-strategy` is not in the snapshot).
§4.7 requires the response array to keep the length and order of the
input — duplicate elision happens in the coalescer, not by dropping
items — so the pass returns the batch unchanged. -/
def optimizeForSubgraph (requests : List JSONRPCRequest) : List JSONRPCRequest :=
  requests

/-- The error response pushed for a rejected item (lines 388-398): code
`-32000`, message `Request failed`, and `id: null`. -/
def batchErrorResponse (msg : String) : JSONRPCResponse :=
  { id := some Json.null, result := none,
    error := some { code := -32000, message := "Request failed", data := some (Json.str msg) } }

/-- `Promise.allSettled` handling of one item: a fulfilled promise
contributes its value, a rejected one the `-32000` error object. -/
def settleOne (handler : JSONRPCRequest → Except String JSONRPCResponse)
    (request : JSONRPCRequest) : JSONRPCResponse :=
  match handler request with
  | Except.ok v => v
  | Except.error msg => batchErrorResponse msg

/-- The chunked loop of `processBatchRequests` (lines 375-401), with a
structural fuel so that concrete runs evaluate: each iteration settles one
chunk of `limit` items and recurses on the rest.  The fuel never runs out
when it is at least the batch length; `max 1 limit` reflects that the
source's `i += limit` loop only terminates for a positive configured
limit. -/
def processChunksFuel (handler : JSONRPCRequest → Except String JSONRPCResponse)
    (limit : Nat) : Nat → List JSONRPCRequest → List JSONRPCResponse
  | 0, _ => []
  | _ + 1, [] => []
  | fuel + 1, r :: rest =>
    let sz := max 1 limit
    ((r :: rest).take sz).map (settleOne handler) ++
      processChunksFuel handler limit fuel ((r :: rest).drop sz)

/-- `RPCProxy.processBatchRequests`: the optimization pass, then chunked
settlement with per-item error isolation. -/
def processBatchRequests (limit : Nat)
    (handler : JSONRPCRequest → Except String JSONRPCResponse)
    (requests : List JSONRPCRequest) : List JSONRPCResponse :=
  let optimized := optimizeForSubgraph requests
  processChunksFuel handler limit optimized.length optimized

/-! The per-network circuit-breaker map (`RPCProxy.loadNetworkMap` and the
breaker selection of lines 471-473 and 623-627). -/

/-- One configured network entry: a bare URL string, an object with a
`url` member, or anything else (skipped). -/
inductive NetCfg where
  | strUrl (url : String) : NetCfg
  | objUrl (url : String) : NetCfg
  | bad : NetCfg
deriving DecidableEq

/-- `RPCProxy.loadNetworkMap`: every entry that is a string or an object
with a `url` lands in the network map and gets a circuit breaker under its
key; other entries are skipped.  Returns the URL map and the list of
breaker keys. -/
def loadNetworkMap : List (String × NetCfg) → List (String × String) × List String
  | [] => ([], [])
  | (k, NetCfg.strUrl u) :: rest =>
    let r := loadNetworkMap rest
    ((k, u) :: r.1, k :: r.2)
  | (k, NetCfg.objUrl u) :: rest =>
    let r := loadNetworkMap rest
    ((k, u) :: r.1, k :: r.2)
  | (_, NetCfg.bad) :: rest => loadNetworkMap rest

/-- Line 473: `networkKey ? this.circuitBreakers.get(networkKey) :
undefined` — the breaker guarding the call, if any. -/
def selectCircuitBreaker (breakerKeys : List String) (networkKey : Option String) :
    Option String :=
  match networkKey with
  | some k => if breakerKeys.contains k then some k else none
  | none => none

/-- Lines 623-627 with the breaker semantics modelled from the spec §4.2
(the module `@/utils/circuit-breaker` is not in the snapshot): with a
breaker present, an open breaker rejects before any HTTP attempt; with no
breaker the upstream call always executes.  Returns whether the upstream
call is executed. -/
def upstreamCallExecutes (breakerOpen : String → Bool) (breakerKeys : List String)
    (networkKey : Option String) : Bool :=
  match selectCircuitBreaker breakerKeys networkKey with
  | some k => !breakerOpen k
  | none => true

/-! Spec-side definitions used to compare claims with the code. -/

/-- The fingerprint format as amended for claim C1: `keyPrefix ++ method`
for absent or empty params, `keyPrefix ++ method ++ ":" ++ String(p)` for a
single element (JS string coercion), and
`keyPrefix ++ method ++ ":" ++ JSON.stringify(params)` (insertion-order
keys, no whitespace) otherwise. -/
def fingerprintAmendedSpec (kpfx method : String) : Option (List Json) → String
  | none => kpfx ++ method
  | some [] => kpfx ++ method
  | some [p] => kpfx ++ method ++ ":" ++ jsToString p
  | some ps => kpfx ++ method ++ ":" ++ jsonStringify (Json.arr ps)

/-- The null-result method condition of claim C7, written from its words:
`eth_getBlockByNumber` with a specific hex block number (a `0x...` string,
not `latest`/`pending`), `eth_getLogs`, or `eth_getTransactionReceipt`. -/
def c7SpecNullFallbackCond (r : JSONRPCRequest) : Bool :=
  (r.method == "eth_getBlockByNumber" &&
    (match (r.params.getD [])[0]? with
     | some (Json.str s) => strStartsWith s "0x" && s != "latest" && s != "pending"
     | _ => false)) ||
  r.method == "eth_getLogs" || r.method == "eth_getTransactionReceipt"

/-! Concrete instances used by the witnesses and counterexamples. -/

/-- A handler succeeding with result `0x1` except for method `bad`. -/
def c2Handler : JSONRPCRequest → Except String JSONRPCResponse := fun r =>
  if r.method == "bad" then Except.error "boom"
  else Except.ok ⟨r.id, some (Json.str "0x1"), none⟩

/-- A two-item batch whose second item fails. -/
def c2Batch : List JSONRPCRequest :=
  [⟨"eth_chainId", some [], some (Json.num 1)⟩, ⟨"bad", some [], some (Json.num 2)⟩]

/-- A single request carrying id 2 whose processing rejects. -/
def c2FailReq : JSONRPCRequest := ⟨"eth_getBalance", some [Json.str "0xabc"], some (Json.num 2)⟩

/-- An upstream echoing the id of the request it is given. -/
def c3Upstream : JSONRPCRequest → JSONRPCResponse := fun r =>
  ⟨r.id, some (Json.str "0x1"), none⟩

/-- Three identical requests distinguished only by their ids. -/
def c3Req1 : JSONRPCRequest := ⟨"eth_chainId", some [], some (Json.num 1)⟩

/-- Second identical request, id 2. -/
def c3Req2 : JSONRPCRequest := ⟨"eth_chainId", some [], some (Json.num 2)⟩

/-- Third identical request, id 3. -/
def c3Req3 : JSONRPCRequest := ⟨"eth_chainId", some [], some (Json.num 3)⟩

/-- The JSON-RPC error reply `{"error":{"code":-32000,"message":"block not
found"}}` as a parsed body (result absent). -/
def c4ErrBody : JSONRPCResponse :=
  ⟨some (Json.num 9), none, some ⟨-32000, "block not found", none⟩⟩

/-- The fallback's successful reply with result `0xdeadbeef`. -/
def c4FbBody : JSONRPCResponse :=
  ⟨some (Json.num 9), some (Json.str "0xdeadbeef"), none⟩

/-- A primary upstream answering with the error reply over a successful
transport. -/
def c4PrimaryReply : JSONRPCRequest → UpstreamOutcome := fun _ =>
  UpstreamOutcome.reply c4ErrBody

/-- A primary upstream whose call throws a transport error reading
`Block Not Found`. -/
def c4PrimaryThrow : JSONRPCRequest → UpstreamOutcome := fun _ =>
  UpstreamOutcome.tfail ⟨"Block Not Found", none⟩

/-- A fallback upstream answering `0xdeadbeef`. -/
def c4Fallback : JSONRPCRequest → UpstreamOutcome := fun _ =>
  UpstreamOutcome.reply c4FbBody

/-- The `eth_getBalance` request with id 9 of the claim's scenario. -/
def c4Req : JSONRPCRequest :=
  ⟨"eth_getBalance", some [Json.str "0xabc", Json.str "latest"], some (Json.num 9)⟩

/-- An `eth_getBalance` request (not an `eth_call`). -/
def c5Req : JSONRPCRequest :=
  ⟨"eth_getBalance", some [Json.str "0xabc", Json.str "latest"], some (Json.num 1)⟩

/-- The transport error whose text matches only the block-tolerance
pattern `block ordering error`. -/
def c5Err : TransportError := ⟨"block ordering error", none⟩

/-- A good reply: id 1, result `0x1`, no error member. -/
def c6Body : JSONRPCResponse := ⟨some (Json.num 1), some (Json.str "0x1"), none⟩

/-- A primary upstream returning the good reply. -/
def c6Primary : JSONRPCRequest → UpstreamOutcome := fun _ => UpstreamOutcome.reply c6Body

/-- A primary upstream throwing a connection error that matches no archive
pattern. -/
def c6PrimaryThrow : JSONRPCRequest → UpstreamOutcome := fun _ =>
  UpstreamOutcome.tfail ⟨"connect ECONNREFUSED", none⟩

/-- The `eth_chainId` request of the cache-write scenario. -/
def c6Req : JSONRPCRequest := ⟨"eth_chainId", some [], some (Json.num 1)⟩

/-- A primary upstream replying `result: null`. -/
def c7Primary : JSONRPCRequest → UpstreamOutcome := fun _ =>
  UpstreamOutcome.reply ⟨some (Json.num 7), some Json.null, none⟩

/-- The body replied by `c7Primary`. -/
def c7NullBody : JSONRPCResponse := ⟨some (Json.num 7), some Json.null, none⟩

/-- A fallback upstream holding the historical data. -/
def c7Fallback : JSONRPCRequest → UpstreamOutcome := fun _ =>
  UpstreamOutcome.reply ⟨some (Json.num 7), some (Json.arr [Json.obj [("logIndex", Json.str "0x0")]]), none⟩

/-- An `eth_getLogs` request, member of the archive-fallback method set. -/
def c7LogsReq : JSONRPCRequest :=
  ⟨"eth_getLogs", some [Json.obj [("fromBlock", Json.str "0x1")]], some (Json.num 7)⟩

/-- An `eth_getBalance` request, not in the archive-fallback method set. -/
def c7BalanceReq : JSONRPCRequest :=
  ⟨"eth_getBalance", some [Json.str "0xabc"], some (Json.num 7)⟩

/-- A block-number cache holding block 42 for `mainnet`, fetched at 0 ms. -/
def c8Blocks : List (String × BlockEntry) := [("mainnet", ⟨42, 0⟩)]

/-- An `eth_call` with block tag `latest`. -/
def c8Req : JSONRPCRequest :=
  ⟨"eth_call", some [Json.obj [("to", Json.str "0xabc")], Json.str "latest"], some (Json.num 1)⟩

/-- A block-number cache holding the falsy block number 0 for `mainnet`,
fetched at 0 ms (fresh at 1000 ms). -/
def c8ZeroBlocks : List (String × BlockEntry) := [("mainnet", ⟨0, 0⟩)]

/-- A configuration with one network named `mainnet`. -/
def c10Nets : List (String × NetCfg) := [("mainnet", NetCfg.strUrl "http://primary")]

/-- A configuration declaring a network literally named `default`. -/
def c10DefaultNets : List (String × NetCfg) := [("default", NetCfg.strUrl "http://primary")]

/-! Theorems. -/

/-- Claim C1, counterexample: the single-element fast path coerces the
parameter with JS string conversion, so the requests with params `[1]` and
`["1"]` — distinct params values — share the fingerprint `net:m:1`,
refuting the claim that distinct params never share a fingerprint (and the
serialization is `JSON.stringify`, not sorted canonical JSON). -/
theorem c1_fingerprint_collision :
    generateInflightKey "net:" ⟨"m", some [Json.num 1], some (Json.num 1)⟩ =
      generateInflightKey "net:" ⟨"m", some [Json.str "1"], some (Json.num 2)⟩ ∧
    generateInflightKey "net:" ⟨"m", some [Json.num 1], some (Json.num 1)⟩ = "net:m:1" ∧
    (some [Json.num 1] : Option (List Json)) ≠ some [Json.str "1"] :=
  ⟨rfl, rfl, by decide⟩

/-- Claim C1 (amended): the fingerprint is `networkKey:method` when params
is absent or empty, `networkKey:method:String(params[0])` for a single
element (JS coercion, so distinct params values can collide),
`networkKey:method:JSON.stringify(params)` (insertion-order keys, no
whitespace) otherwise; a request with params omitted shares its
fingerprint with one whose params is `[]`. -/
theorem c1_fingerprint_characterization (kpfx : String) (r : JSONRPCRequest) :
    generateInflightKey kpfx r = fingerprintAmendedSpec kpfx r.method r.params ∧
    generateInflightKey kpfx ⟨r.method, none, r.id⟩ =
      generateInflightKey kpfx ⟨r.method, some [], r.id⟩ := by
  refine ⟨?_, rfl⟩
  cases hp : r.params with
  | none => simp [generateInflightKey, fingerprintAmendedSpec, hp]
  | some ps =>
    cases ps with
    | nil => simp [generateInflightKey, fingerprintAmendedSpec, hp]
    | cons p rest =>
      cases rest with
      | nil => simp [generateInflightKey, fingerprintAmendedSpec, hp]
      | cons q rest2 => simp [generateInflightKey, fingerprintAmendedSpec, hp]

/-- Helper: with enough fuel the chunked batch loop is a plain map. -/
theorem processChunksFuel_eq_map (handler : JSONRPCRequest → Except String JSONRPCResponse)
    (limit : Nat) :
    ∀ (fuel : Nat) (rs : List JSONRPCRequest), rs.length ≤ fuel →
      processChunksFuel handler limit fuel rs = rs.map (settleOne handler) := by
  intro fuel
  induction fuel with
  | zero =>
    intro rs h
    cases rs with
    | nil => rfl
    | cons r t => exact absurd h (by simp)
  | succ n ih =>
    intro rs h
    cases rs with
    | nil => rfl
    | cons r t =>
      rw [processChunksFuel,
        ih _ (by simp only [List.length_drop, List.length_cons]; simp at h; omega)]
      rw [← List.map_append, List.take_append_drop]

/-- Claim C2, counterexample: a batch item that rejects produces the
`-32000` error object with `id: null` at its position, not the item's own
id — here the request carried id 2. -/
theorem c2_batch_error_id_counterexample :
    (processBatchRequests 10 (fun _ => Except.error "connection refused") [c2FailReq])[0]? =
      some (batchErrorResponse "connection refused") ∧
    c2FailReq.id = some (Json.num 2) ∧
    (batchErrorResponse "connection refused").id ≠ c2FailReq.id :=
  ⟨rfl, rfl, by decide⟩

/-- Claim C2 (amended): for every batch the response array has exactly the
input's length, and position `i` carries the settled outcome of request
`i` — its handler result when fulfilled (which carries the request's id
when the upstream echoes it), and the `-32000` error object with `id:
null` when rejected; a rejection does not abort the batch.  (The
duplicate-elision pass is modelled as the identity per §4.7.) -/
theorem c2_batch_shape (limit : Nat)
    (handler : JSONRPCRequest → Except String JSONRPCResponse)
    (requests : List JSONRPCRequest) :
    (processBatchRequests limit handler requests).length = requests.length ∧
    ∀ i : Nat, i < requests.length →
      (processBatchRequests limit handler requests)[i]? =
        (requests[i]?).map (settleOne handler) := by
  have hm : processBatchRequests limit handler requests = requests.map (settleOne handler) :=
    processChunksFuel_eq_map handler limit requests.length requests (Nat.le_refl _)
  refine ⟨by rw [hm]; exact List.length_map _ _, ?_⟩
  intro i hi
  rw [hm, List.getElem?_map]

/-- Claim C2, witness: the two-item batch with a failing second item keeps
its length and per-index outcomes. -/
theorem c2_batch_shape_witness :
    (processBatchRequests 10 c2Handler c2Batch).length = c2Batch.length ∧
    (processBatchRequests 10 c2Handler c2Batch)[1]? =
      (c2Batch[1]?).map (settleOne c2Handler) :=
  ⟨(c2_batch_shape 10 c2Handler c2Batch).1,
   (c2_batch_shape 10 c2Handler c2Batch).2 1 (by decide)⟩

/-- Helper: the fingerprint only reads the method and params. -/
theorem generateInflightKey_congr (kpfx : String) (r1 r2 : JSONRPCRequest)
    (hm : r1.method = r2.method) (hp : r1.params = r2.params) :
    generateInflightKey kpfx r1 = generateInflightKey kpfx r2 := by
  unfold generateInflightKey
  rw [hm, hp]

/-- Helper: arrivals whose fingerprint is already in the in-flight table
are all served the stored response with no upstream call. -/
theorem coalesceRun_all_hit (up : JSONRPCRequest → JSONRPCResponse) (kpfx : String)
    (v : JSONRPCResponse) (inflight : List (String × JSONRPCResponse)) :
    ∀ rs : List JSONRPCRequest,
      (∀ r ∈ rs, inflight.lookup (generateInflightKey kpfx r) = some v) →
      coalesceRun up inflight kpfx rs = (List.replicate rs.length v, inflight, 0) := by
  intro rs
  induction rs with
  | nil => intro h; rfl
  | cons r t ih =>
    intro h
    have hr := h r (by simp)
    have ht := ih (fun x hx => h x (by simp [hx]))
    simp [coalesceRun, coalesceStep, hr, ht, List.replicate]

/-- Claim C3 (amended): when N identical requests (same method and params,
any ids) arrive with a cold cache before the first settles, exactly one
upstream call is made and every caller receives the literally identical
settled response — the one produced for the first arrival, carrying the
first arrival's id; waiters' own ids are not substituted. -/
theorem c3_coalesce_single_upstream (up : JSONRPCRequest → JSONRPCResponse)
    (kpfx : String) (r0 : JSONRPCRequest) (rs : List JSONRPCRequest)
    (h : ∀ r ∈ rs, r.method = r0.method ∧ r.params = r0.params) :
    coalesceRun up [] kpfx (r0 :: rs) =
      (List.replicate (rs.length + 1) (up r0),
       [(generateInflightKey kpfx r0, up r0)], 1) := by
  have hstep : coalesceStep up [] kpfx r0 =
      (up r0, [(generateInflightKey kpfx r0, up r0)], 1) := by
    simp [coalesceStep]
  have htail := coalesceRun_all_hit up kpfx (up r0)
    [(generateInflightKey kpfx r0, up r0)] rs
    (fun r hr => by
      rw [generateInflightKey_congr kpfx r r0 (h r hr).1 (h r hr).2]
      simp [List.lookup])
  simp [coalesceRun, hstep, htail, List.replicate]

/-- Claim C3, witness: three identical `eth_chainId` requests with ids 1,
2, 3 produce one upstream call and three copies of the first response. -/
theorem c3_coalesce_single_upstream_witness :
    coalesceRun c3Upstream [] "mainnet:" [c3Req1, c3Req2, c3Req3] =
      (List.replicate 3 (c3Upstream c3Req1),
       [(generateInflightKey "mainnet:" c3Req1, c3Upstream c3Req1)], 1) :=
  c3_coalesce_single_upstream c3Upstream "mainnet:" c3Req1 [c3Req2, c3Req3] (by decide)

/-- Claim C3, counterexample: with a cold cache, the second of two
concurrent identical requests receives the first caller's response
verbatim — id 1, not its own id 2 — refuting the claimed per-caller id
substitution. -/
theorem c3_coalesce_id_counterexample :
    (coalesceRun c3Upstream [] "mainnet:" [c3Req1, c3Req2]).1.map JSONRPCResponse.id =
      [some (Json.num 1), some (Json.num 1)] ∧
    c3Req2.id = some (Json.num 2) ∧
    (some (Json.num 1) : Option Json) ≠ some (Json.num 2) ∧
    (coalesceRun c3Upstream [] "mainnet:" [c3Req1, c3Req2]).2.2 = 1 :=
  ⟨rfl, rfl, by decide, rfl⟩

/-- Claim C5: the failing input.  For `eth_getBalance` — not an
`eth_call` — with an error message reading `block ordering error`, which
matches a block-tolerance pattern but none of the ten archive substrings,
`shouldFallbackToArchive` still returns `true`: the `eth_call`/`latest`
guard is dead because line 131 returns
`needsArchive || hasBlockToleranceIssue` unconditionally. -/
theorem c5_block_tolerance_gate_failing_input :
    shouldFallbackToArchive (some c5Err) c5Req none = true ∧
    c5Req.method ≠ "eth_call" ∧
    needsArchive (errMsgOf (some c5Err)) (errDataOf (some c5Err)) = false ∧
    hasBlockToleranceIssue (errMsgOf (some c5Err)) (errDataOf (some c5Err)) = true :=
  ⟨by decide, by decide, by decide, by decide⟩

/-- Helper: a thrown error matching an archive substring satisfies the
router predicate. -/
theorem shouldFallback_of_needsArchive (e : TransportError) (r : JSONRPCRequest)
    (h : needsArchive (errMsgOf (some e)) (errDataOf (some e)) = true) :
    shouldFallbackToArchive (some e) r none = true := by
  unfold shouldFallbackToArchive
  have h0 : nullResultCond r none = false := rfl
  rw [h0]
  simp [h]

/-- Claim C4 (amended): when the primary call throws a transport error
whose lowercased message or data contains one of the ten archive
substrings and a fallback exists, the request is retried against the
fallback and the fallback's reply is returned (written to the cache under
the cacheable/problematic rules); a JSON-RPC error reply delivered over a
successful transport has no `result === null`, is returned to the client
unchanged, and never triggers the fallback. -/
theorem c4_transport_error_fallback (primary fallbackFn : JSONRPCRequest → UpstreamOutcome)
    (fbOpt : Option (JSONRPCRequest → UpstreamOutcome)) (isCacheable : Bool)
    (cacheKey : String) (cache : List (String × Json)) (request : JSONRPCRequest)
    (e : TransportError) (body b : JSONRPCResponse) :
    (primary request = UpstreamOutcome.tfail e →
      needsArchive (errMsgOf (some e)) (errDataOf (some e)) = true →
      fallbackFn request = UpstreamOutcome.reply b →
      processUpstreamPhase primary (some fallbackFn) isCacheable cacheKey cache request =
        ⟨Except.ok b, true, 1, writeCache isCacheable cacheKey cache b⟩) ∧
    (primary request = UpstreamOutcome.reply body → resultIsNull body = false →
      processUpstreamPhase primary fbOpt isCacheable cacheKey cache request =
        ⟨Except.ok body, false, 0, writeCache isCacheable cacheKey cache body⟩) := by
  constructor
  · intro hp hna hf
    have hsf := shouldFallback_of_needsArchive e request hna
    simp [processUpstreamPhase, runUpstream, hp, hsf, hf]
  · intro hp hnull
    simp [processUpstreamPhase, runUpstream, hp, hnull]

/-- Claim C4, witness: a thrown `Block Not Found` transport error is
retried on the fallback, whose `0xdeadbeef` result is returned and cached;
the same reply sent as a JSON-RPC error body is returned as is with an
untouched cache. -/
theorem c4_transport_error_fallback_witness :
    processUpstreamPhase c4PrimaryThrow (some c4Fallback) true "k" [] c4Req =
      ⟨Except.ok c4FbBody, true, 1, [("k", Json.str "0xdeadbeef")]⟩ ∧
    processUpstreamPhase c4PrimaryReply (some c4Fallback) true "k" [] c4Req =
      ⟨Except.ok c4ErrBody, false, 0, []⟩ :=
  ⟨(c4_transport_error_fallback c4PrimaryThrow c4Fallback (some c4Fallback) true "k" [] c4Req
      ⟨"Block Not Found", none⟩ c4ErrBody c4FbBody).1 rfl (by decide) rfl,
   (c4_transport_error_fallback c4PrimaryReply c4Fallback (some c4Fallback) true "k" [] c4Req
      ⟨"Block Not Found", none⟩ c4ErrBody c4FbBody).2 rfl rfl⟩

/-- Claim C4, counterexample: a primary JSON-RPC reply
`{"error":{"code":-32000,"message":"block not found"}}` for
`eth_getBalance` is a successful transport, so the pipeline returns the
error body itself — not the configured fallback's `0xdeadbeef` — makes no
fallback call, and caches nothing. -/
theorem c4_error_reply_no_fallback_counterexample :
    (processUpstreamPhase c4PrimaryReply (some c4Fallback) true "k" [] c4Req).fallbackCalls = 0 ∧
    (processUpstreamPhase c4PrimaryReply (some c4Fallback) true "k" [] c4Req).outcome =
      Except.ok c4ErrBody ∧
    c4ErrBody.error = some ⟨-32000, "block not found", none⟩ ∧
    c4ErrBody.result ≠ some (Json.str "0xdeadbeef") ∧
    (processUpstreamPhase c4PrimaryReply (some c4Fallback) true "k" [] c4Req).cache = [] :=
  ⟨rfl, rfl, rfl, by decide, rfl⟩

/-- Helper: a settled upstream body came from the primary's reply or from
the fallback's reply. -/
theorem runUpstream_ok_source (primary : JSONRPCRequest → UpstreamOutcome)
    (fb : Option (JSONRPCRequest → UpstreamOutcome)) (r : JSONRPCRequest)
    (body : JSONRPCResponse) (fbu : Bool) (n : Nat)
    (h : runUpstream primary fb r = (Except.ok (body, fbu), n)) :
    primary r = UpstreamOutcome.reply body ∨
      (∃ f, fb = some f ∧ f r = UpstreamOutcome.reply body) := by
  cases hp : primary r with
  | reply b0 =>
    simp only [runUpstream, hp] at h
    by_cases hg : (resultIsNull b0 && shouldFallbackToArchive none r (some b0)) = true
    · rw [if_pos hg] at h
      cases hfb : fb with
      | none => simp only [hfb] at h; exact absurd h (by simp)
      | some f =>
        simp only [hfb] at h
        cases hf : f r with
        | reply b2 =>
          simp only [hf, Prod.mk.injEq, Except.ok.injEq] at h
          exact Or.inr ⟨f, rfl, by rw [hf, h.1.1]⟩
        | tfail e2 => simp only [hf] at h; exact absurd h (by simp)
    · rw [if_neg hg] at h
      simp only [Prod.mk.injEq, Except.ok.injEq] at h
      exact Or.inl (by rw [h.1.1])
  | tfail e =>
    simp only [runUpstream, hp] at h
    by_cases hg : shouldFallbackToArchive (some e) r none = true
    · rw [if_pos hg] at h
      cases hfb : fb with
      | none => simp only [hfb] at h; exact absurd h (by simp)
      | some f =>
        simp only [hfb] at h
        cases hf : f r with
        | reply b2 =>
          simp only [hf, Prod.mk.injEq, Except.ok.injEq] at h
          exact Or.inr ⟨f, rfl, by rw [hf, h.1.1]⟩
        | tfail e2 => simp only [hf] at h; exact absurd h (by simp)
    · rw [if_neg hg] at h
      exact absurd h (by simp)

/-- Claim C6: a cache entry is written only when the settled body is a
non-error response whose `result` is present, not `null`, and not
problematic (no empty array, no empty object, no error-looking string);
a thrown error, and a reply without a `result` (in particular a JSON-RPC
error reply), leave the cache untouched — so every entry the phase writes
fails the problematic-response predicate.  Well-formedness of the upstream
bodies (a reply carrying a `result` has no `error` member, the spec's
response data model) gives the non-error part. -/
theorem c6_cache_write_invariant (primary : JSONRPCRequest → UpstreamOutcome)
    (fb : Option (JSONRPCRequest → UpstreamOutcome)) (isCacheable : Bool)
    (cacheKey : String) (cache : List (String × Json)) (r : JSONRPCRequest)
    (body : JSONRPCResponse) (v : Json) (res : PhaseResult)
    (hres : res = processUpstreamPhase primary fb isCacheable cacheKey cache r)
    (hwfP : ∀ b2, primary r = UpstreamOutcome.reply b2 → b2.result.isSome = true →
      b2.error = none)
    (hwfF : ∀ f b2, fb = some f → f r = UpstreamOutcome.reply b2 → b2.result.isSome = true →
      b2.error = none) :
    (res.outcome.isOk = false → res.cache = cache) ∧
    (res.outcome = Except.ok body → body.result = none → res.cache = cache) ∧
    (res.outcome = Except.ok body → body.result = some v → isCacheable = true →
      v ≠ Json.null → isProblematicResponse v = false →
      res.cache = (cacheKey, v) :: cache ∧ body.error = none) ∧
    (res.outcome = Except.ok body → body.result = some v →
      (v = Json.null ∨ isProblematicResponse v = true ∨ isCacheable = false) →
      res.cache = cache) := by
  subst hres
  rcases hru : runUpstream primary fb r with ⟨o, n⟩
  cases o with
  | error e =>
    have hpp : processUpstreamPhase primary fb isCacheable cacheKey cache r =
        ⟨Except.error e, false, n, cache⟩ := by
      simp only [processUpstreamPhase, hru]
    rw [hpp]
    exact ⟨fun _ => rfl, fun hok => absurd hok (by simp),
      fun hok => absurd hok (by simp), fun hok => absurd hok (by simp)⟩
  | ok p =>
    obtain ⟨b, fbu⟩ := p
    have hpp : processUpstreamPhase primary fb isCacheable cacheKey cache r =
        ⟨Except.ok b, fbu, n, writeCache isCacheable cacheKey cache b⟩ := by
      simp only [processUpstreamPhase, hru]
    rw [hpp]
    refine ⟨(fun hbad => nomatch hbad), ?_, ?_, ?_⟩
    · intro hok hnone
      have hb : b = body := by simpa using hok
      subst hb
      simp [writeCache, hnone]
    · intro hok hsome hC hnn hnp
      have hb : b = body := by simpa using hok
      subst hb
      constructor
      · have hne : (v == Json.null) = false := by simpa using hnn
        simp [writeCache, hsome, hC, hnp, hne]
      · rcases runUpstream_ok_source primary fb r b fbu n hru with hsrc | ⟨f, hf1, hf2⟩
        · exact hwfP b hsrc (by rw [hsome]; rfl)
        · exact hwfF f b hf1 hf2 (by rw [hsome]; rfl)
    · intro hok hsome hbad
      have hb : b = body := by simpa using hok
      subst hb
      rcases hbad with h1 | h1 | h1
      · subst h1; simp [writeCache, hsome]
      · simp [writeCache, hsome, h1]
      · simp [writeCache, hsome, h1]

/-- Claim C6, witness: a good `eth_chainId` reply is written to the cache
(and its body has no `error` member); a thrown connection error writes
nothing. -/
theorem c6_cache_write_invariant_witness :
    (processUpstreamPhase c6Primary none true "mainnet:eth_chainId" [] c6Req).cache =
      [("mainnet:eth_chainId", Json.str "0x1")] ∧
    c6Body.error = none ∧
    (processUpstreamPhase c6PrimaryThrow none true "mainnet:eth_chainId" [] c6Req).cache = [] := by
  refine ⟨?_, ?_, ?_⟩
  · exact ((c6_cache_write_invariant c6Primary none true "mainnet:eth_chainId" [] c6Req c6Body
      (Json.str "0x1") _ rfl (fun b2 hb _ => by injection hb with h1; rw [← h1]; rfl)
      (fun f b2 hf => nomatch hf)).2.2.1 rfl rfl rfl (by decide) rfl).1
  · exact ((c6_cache_write_invariant c6Primary none true "mainnet:eth_chainId" [] c6Req c6Body
      (Json.str "0x1") _ rfl (fun b2 hb _ => by injection hb with h1; rw [← h1]; rfl)
      (fun f b2 hf => nomatch hf)).2.2.1 rfl rfl rfl (by decide) rfl).2
  · exact (c6_cache_write_invariant c6PrimaryThrow none true "mainnet:eth_chainId" [] c6Req c6Body
      (Json.str "0x1") _ rfl (fun b2 hb => nomatch hb)
      (fun f b2 hf => nomatch hf)).1 rfl

/-- Helper: with no thrown error the router predicate is exactly its
null-result condition (the substring and regex checks see empty strings). -/
theorem shouldFallback_none_eq_nullCond (r : JSONRPCRequest) (body : JSONRPCResponse) :
    shouldFallbackToArchive none r (some body) = nullResultCond r (some body) := by
  unfold shouldFallbackToArchive
  have hna : needsArchive (errMsgOf none) (errDataOf none) = false := by decide
  have hbt : hasBlockToleranceIssue (errMsgOf none) (errDataOf none) = false := by decide
  cases hnc : nullResultCond r (some body) <;> simp [hnc, hna, hbt]

/-- Helper: the null-result condition is the claim's method condition
conjoined with `result === null`. -/
theorem nullResultCond_some (r : JSONRPCRequest) (body : JSONRPCResponse) :
    nullResultCond r (some body) = (resultIsNull body && c7SpecNullFallbackCond r) := rfl

/-- Claim C7: on a primary reply, the fallback (when configured) is
contacted exactly when `result === null` and the method condition of the
claim holds (`eth_getBlockByNumber` with a specific hex block,
`eth_getLogs`, or `eth_getTransactionReceipt`); and any successful primary
response not matching the archive-fallback predicate never contacts the
fallback. -/
theorem c7_null_result_fallback_iff (primary fbFn : JSONRPCRequest → UpstreamOutcome)
    (fbOpt : Option (JSONRPCRequest → UpstreamOutcome)) (r : JSONRPCRequest)
    (body : JSONRPCResponse) (hp : primary r = UpstreamOutcome.reply body) :
    ((runUpstream primary (some fbFn) r).2 =
      if resultIsNull body && c7SpecNullFallbackCond r then 1 else 0) ∧
    (shouldFallbackToArchive none r (some body) = false →
      (runUpstream primary fbOpt r).2 = 0) := by
  have hsf : shouldFallbackToArchive none r (some body) =
      (resultIsNull body && c7SpecNullFallbackCond r) := by
    rw [shouldFallback_none_eq_nullCond, nullResultCond_some]
  constructor
  · cases hrn : resultIsNull body with
    | false => simp [runUpstream, hp, hsf, hrn]
    | true =>
      cases hc : c7SpecNullFallbackCond r with
      | false => simp [runUpstream, hp, hsf, hrn, hc]
      | true =>
        simp only [runUpstream, hp, hsf, hrn, hc, Bool.and_self, Bool.true_and, Bool.and_true,
          if_true]
        cases hf : fbFn r <;> simp [hf]
  · intro hno
    simp [runUpstream, hp, hno]

/-- Claim C7, witness: a null `eth_getLogs` result goes to the fallback
once; a null `eth_getBalance` result never does. -/
theorem c7_null_result_fallback_iff_witness :
    (runUpstream c7Primary (some c7Fallback) c7LogsReq).2 = 1 ∧
    (runUpstream c7Primary (some c7Fallback) c7BalanceReq).2 = 0 := by
  constructor
  · have h := (c7_null_result_fallback_iff c7Primary c7Fallback (some c7Fallback) c7LogsReq
      c7NullBody rfl).1
    rw [h]; rfl
  · exact (c7_null_result_fallback_iff c7Primary c7Fallback (some c7Fallback) c7BalanceReq
      c7NullBody rfl).2 (by decide)

/-- Helper: a member of the list occurs inside the comma join. -/
theorem joinComma_mem (x : String) : ∀ l : List String, x ∈ l →
    ∃ pre post : List Char, (joinComma l).data = pre ++ x.data ++ post := by
  intro l
  induction l with
  | nil => intro h; exact absurd h (by simp)
  | cons s rest ih =>
    intro h
    cases rest with
    | nil =>
      have hx : x = s := by simpa using h
      exact ⟨[], [], by simp [joinComma, hx]⟩
    | cons s2 rest2 =>
      have hj : joinComma (s :: s2 :: rest2) = s ++ "," ++ joinComma (s2 :: rest2) := rfl
      rcases List.mem_cons.mp h with hx | hx
      · exact ⟨[], (",".data ++ (joinComma (s2 :: rest2)).data),
          by simp [hj, String.data_append, hx, List.append_assoc]⟩
      · obtain ⟨pre, post, hpp⟩ := ih hx
        exact ⟨s.data ++ ",".data ++ pre, post,
          by simp [hj, String.data_append, hpp, List.append_assoc]⟩

/-- Helper: escaping leaves a plain character alone. -/
theorem escapeChar_plain (c : Char) (h1 : 48 ≤ c.toNat) (h2 : c.toNat ≤ 122)
    (h3 : c.toNat ≠ 34) (h4 : c.toNat ≠ 92) : escapeChar c = [c] := by
  have g1 : c ≠ '"' := fun h => h3 (by rw [h]; rfl)
  have g2 : c ≠ '\\' := fun h => h4 (by rw [h]; rfl)
  have g3 : c ≠ '\n' := fun h => absurd (h ▸ h1) (by decide)
  have g4 : c ≠ '\r' := fun h => absurd (h ▸ h1) (by decide)
  have g5 : c ≠ '\t' := fun h => absurd (h ▸ h1) (by decide)
  have g6 : c ≠ '\x08' := fun h => absurd (h ▸ h1) (by decide)
  have g7 : c ≠ '\x0c' := fun h => absurd (h ▸ h1) (by decide)
  have g8 : ¬(c.toNat < 0x20) := by omega
  simp [escapeChar, g1, g2, g3, g4, g5, g6, g7, g8]

/-- Helper: escaping a list of plain characters is the identity. -/
theorem flatMap_escapeChar_plain : ∀ cs : List Char,
    (∀ c ∈ cs, 48 ≤ c.toNat ∧ c.toNat ≤ 122 ∧ c.toNat ≠ 34 ∧ c.toNat ≠ 92) →
    cs.flatMap escapeChar = cs := by
  intro cs
  induction cs with
  | nil => intro _; rfl
  | cons c t ih =>
    intro h
    have hc := h c (by simp)
    rw [List.flatMap_cons, escapeChar_plain c hc.1 hc.2.1 hc.2.2.1 hc.2.2.2,
      ih (fun x hx => h x (by simp [hx]))]
    rfl

/-- Helper: escaping a string of plain characters is the identity. -/
theorem escapeStr_plain (s : String)
    (h : ∀ c ∈ s.data, 48 ≤ c.toNat ∧ c.toNat ≤ 122 ∧ c.toNat ≠ 34 ∧ c.toNat ≠ 92) :
    escapeStr s = s := by
  unfold escapeStr
  rw [flatMap_escapeChar_plain s.data h]

/-- Helper: every hex digit is a plain character. -/
theorem hexDigitChar_plain (d : Nat) :
    48 ≤ (hexDigitChar d).toNat ∧ (hexDigitChar d).toNat ≤ 122 ∧
    (hexDigitChar d).toNat ≠ 34 ∧ (hexDigitChar d).toNat ≠ 92 := by
  have hall : ∀ x ∈ hexDigits, 48 ≤ x.toNat ∧ x.toNat ≤ 122 ∧ x.toNat ≠ 34 ∧ x.toNat ≠ 92 :=
    by decide
  unfold hexDigitChar List.getD
  simp only [List.get?_eq_getElem?]
  rcases hg : hexDigits[d]? with _ | c
  · decide
  · simpa using hall c (List.getElem?_mem hg)

/-- Helper: the hex conversion emits only plain characters. -/
theorem toHexAux_plain : ∀ (fuel n : Nat) (acc : List Char),
    (∀ c ∈ acc, 48 ≤ c.toNat ∧ c.toNat ≤ 122 ∧ c.toNat ≠ 34 ∧ c.toNat ≠ 92) →
    ∀ c ∈ toHexAux fuel n acc,
      48 ≤ c.toNat ∧ c.toNat ≤ 122 ∧ c.toNat ≠ 34 ∧ c.toNat ≠ 92 := by
  intro fuel
  induction fuel with
  | zero => intro n acc hacc; simpa [toHexAux] using hacc
  | succ m ih =>
    intro n acc hacc
    cases n with
    | zero => simpa [toHexAux] using hacc
    | succ k =>
      rw [toHexAux]
      refine ih ((k + 1) / 16) _ ?_
      intro c hc
      rcases List.mem_cons.mp hc with hc1 | hc1
      · rw [hc1]; exact hexDigitChar_plain ((k + 1) % 16)
      · exact hacc c hc1

/-- Helper: every character of `0x` plus a hex block number is plain. -/
theorem hexString_plain (n : Nat) :
    ∀ c ∈ ("0x" ++ toHex n).data,
      48 ≤ c.toNat ∧ c.toNat ≤ 122 ∧ c.toNat ≠ 34 ∧ c.toNat ≠ 92 := by
  intro c hc
  rw [String.data_append] at hc
  rcases List.mem_append.mp hc with h | h
  · have : c = '0' ∨ c = 'x' := by simpa using h
    rcases this with rfl | rfl <;> decide
  · by_cases hn : n = 0
    · rw [hn] at h
      have : c = '0' := by simpa [toHex] using h
      rw [this]; decide
    · simp only [toHex, if_neg hn] at h
      exact toHexAux_plain (n + 1) n [] (by simp) c h

/-- Helper: the canonical serialization of the hex block-tag string is the
quoted hex string with no escapes. -/
theorem quoteStr_hex_data (n : Nat) :
    (quoteStr ("0x" ++ toHex n)).data = '"' :: (("0x" ++ toHex n).data ++ ['"']) := by
  unfold quoteStr
  rw [escapeStr_plain _ (hexString_plain n)]
  simp [String.data_append]

/-- Helper: a fresh block-number cache holding a nonzero (truthy) block
number rewrites the `latest`/`pending` block tag of an `eth_call` to the
cached hex block number. -/
theorem normalizeBlockTags_fresh (bc : List (String × BlockEntry)) (now : Nat)
    (nk : Option String) (r : JSONRPCRequest) (ps : List Json) (n : Nat)
    (hm : r.method = "eth_call") (hp : r.params = some ps) (hlen : 2 ≤ ps.length)
    (htag : ps[1]? = some (Json.str "latest") ∨ ps[1]? = some (Json.str "pending"))
    (hcur : getCurrentBlockNumber bc nk now = some n) (hnz : n ≠ 0) :
    normalizeBlockTags bc now r nk =
      ⟨r.method, some (ps.set 1 (Json.str ("0x" ++ toHex n))), r.id⟩ := by
  rcases htag with htag | htag <;>
    simp [normalizeBlockTags, hp, hm, hlen, htag, hcur, hnz]

/-- Helper: with a cold or stale block-number cache the request passes
through normalization unchanged. -/
theorem normalizeBlockTags_cold (bc : List (String × BlockEntry)) (now : Nat)
    (nk : Option String) (r : JSONRPCRequest)
    (hcur : getCurrentBlockNumber bc nk now = none) :
    normalizeBlockTags bc now r nk = r := by
  cases hp : r.params with
  | none => simp [normalizeBlockTags, hp]
  | some ps =>
    simp only [normalizeBlockTags, hp]
    by_cases hc : (r.method == "eth_call" && decide (2 ≤ ps.length)) = true
    · rw [if_pos hc]
      cases h1 : ps[1]? with
      | none => rfl
      | some tag =>
        cases tag with
        | str s =>
          by_cases hs : (s == "latest" || s == "pending") = true
          · simp [hs, hcur]
          · simp [hs]
        | null => rfl
        | bool b => rfl
        | num m => rfl
        | arr a => rfl
        | obj o => rfl
    · rw [if_neg hc]

/-- Helper: a fresh block-number cache holding block 0 is falsy under the
source's `if (currentBlock)` test, so the request passes through
normalization unchanged. -/
theorem normalizeBlockTags_zero (bc : List (String × BlockEntry)) (now : Nat)
    (nk : Option String) (r : JSONRPCRequest)
    (hcur : getCurrentBlockNumber bc nk now = some 0) :
    normalizeBlockTags bc now r nk = r := by
  cases hp : r.params with
  | none => simp [normalizeBlockTags, hp]
  | some ps =>
    simp only [normalizeBlockTags, hp]
    by_cases hc : (r.method == "eth_call" && decide (2 ≤ ps.length)) = true
    · rw [if_pos hc]
      cases h1 : ps[1]? with
      | none => rfl
      | some tag =>
        cases tag with
        | str s =>
          by_cases hs : (s == "latest" || s == "pending") = true
          · simp [hs, hcur]
          · simp [hs]
        | null => rfl
        | bool b => rfl
        | num m => rfl
        | arr a => rfl
        | obj o => rfl
    · rw [if_neg hc]

/-- Claim C8 (amended): for an `eth_call` with block tag `latest`, a
fresh (younger than 30 s) block-number cache entry holding a nonzero
block number makes the pipeline's cache key equal to the key of the
request with `params[1]` replaced by the hex-encoded cached block
number — the key contains that hex string; a cold or stale entry, and
likewise a cached block number of 0 (falsy under the source's
`if (currentBlock)` test), leave the key computed from the request
unchanged. -/
theorem c8_latest_normalized_cache_key (bc : List (String × BlockEntry)) (now : Nat)
    (nk : Option String) (r : JSONRPCRequest) (ps : List Json) (entry : BlockEntry)
    (hm : r.method = "eth_call") (hp : r.params = some ps) (hlen : 2 ≤ ps.length)
    (htag : ps[1]? = some (Json.str "latest")) :
    (bc.lookup (nk.getD "default") = some entry → now - entry.timestamp < 30000 →
      entry.blockNumber ≠ 0 →
      cacheKeyFor bc now nk r =
        keyPrefixOf nk ++ getCacheKey
          ⟨r.method, some (ps.set 1 (Json.str ("0x" ++ toHex entry.blockNumber))), r.id⟩ ∧
      ∃ pre post : List Char,
        (cacheKeyFor bc now nk r).data =
          pre ++ ("0x" ++ toHex entry.blockNumber).data ++ post) ∧
    ((∀ e2, bc.lookup (nk.getD "default") = some e2 → 30000 ≤ now - e2.timestamp) →
      cacheKeyFor bc now nk r = keyPrefixOf nk ++ getCacheKey r) ∧
    (bc.lookup (nk.getD "default") = some entry → entry.blockNumber = 0 →
      cacheKeyFor bc now nk r = keyPrefixOf nk ++ getCacheKey r) := by
  refine ⟨?_, ?_, ?_⟩
  · intro hl hage hnz
    have hcur : getCurrentBlockNumber bc nk now = some entry.blockNumber := by
      simp [getCurrentBlockNumber, hl, hage]
    have hnorm := normalizeBlockTags_fresh bc now nk r ps entry.blockNumber hm hp hlen
      (Or.inl htag) hcur hnz
    have hkey : cacheKeyFor bc now nk r =
        keyPrefixOf nk ++ getCacheKey
          ⟨r.method, some (ps.set 1 (Json.str ("0x" ++ toHex entry.blockNumber))), r.id⟩ := by
      unfold cacheKeyFor
      rw [hnorm]
    refine ⟨hkey, ?_⟩
    obtain ⟨p0, ps1, rfl⟩ : ∃ p0 tail, ps = p0 :: tail := by
      cases ps with
      | nil => simp at htag
      | cons a t => exact ⟨a, t, rfl⟩
    obtain ⟨p1v, t, rfl⟩ : ∃ b t2, ps1 = b :: t2 := by
      cases ps1 with
      | nil => simp at htag
      | cons b t2 => exact ⟨b, t2, rfl⟩
    have hp1 : p1v = Json.str "latest" := by simpa using htag
    subst hp1
    have hset : (p0 :: Json.str "latest" :: t).set 1
        (Json.str ("0x" ++ toHex entry.blockNumber)) =
        p0 :: Json.str ("0x" ++ toHex entry.blockNumber) :: t := rfl
    rw [hkey, hset]
    have hgk : getCacheKey
        ⟨r.method, some (p0 :: Json.str ("0x" ++ toHex entry.blockNumber) :: t), r.id⟩ =
        r.method ++ ":" ++
          canonicalJsonStr (Json.arr (p0 :: Json.str ("0x" ++ toHex entry.blockNumber) :: t)) := by
      cases p0 <;> rfl
    rw [hgk]
    have harr : canonicalJsonStr
        (Json.arr (p0 :: Json.str ("0x" ++ toHex entry.blockNumber) :: t)) =
        "[" ++ joinComma (canonicalJsonList
          (p0 :: Json.str ("0x" ++ toHex entry.blockNumber) :: t)) ++ "]" := rfl
    rw [harr]
    have hmem : canonicalJsonStr (Json.str ("0x" ++ toHex entry.blockNumber)) ∈
        canonicalJsonList (p0 :: Json.str ("0x" ++ toHex entry.blockNumber) :: t) := by
      simp [canonicalJsonList]
    obtain ⟨pre1, post1, hjc⟩ := joinComma_mem _ _ hmem
    have hcs : canonicalJsonStr (Json.str ("0x" ++ toHex entry.blockNumber)) =
        quoteStr ("0x" ++ toHex entry.blockNumber) := rfl
    rw [hcs, quoteStr_hex_data] at hjc
    refine ⟨(keyPrefixOf nk).data ++ r.method.data ++ ":".data ++ "[".data ++ pre1 ++ ['"'],
      ['"'] ++ post1 ++ "]".data, ?_⟩
    simp only [String.data_append, hjc]
    simp [List.append_assoc]
  · intro hst
    have hcur : getCurrentBlockNumber bc nk now = none := by
      cases hl2 : bc.lookup (nk.getD "default") with
      | none => simp [getCurrentBlockNumber, hl2]
      | some e2 =>
        have h30 := hst e2 hl2
        simp only [getCurrentBlockNumber, hl2]
        rw [if_neg (by omega)]
    unfold cacheKeyFor
    rw [normalizeBlockTags_cold bc now nk r hcur]
  · intro hl hz
    by_cases hage : now - entry.timestamp < 30000
    · have hcur : getCurrentBlockNumber bc nk now = some 0 := by
        rw [← hz]
        simp [getCurrentBlockNumber, hl, hage]
      unfold cacheKeyFor
      rw [normalizeBlockTags_zero bc now nk r hcur]
    · have hcur : getCurrentBlockNumber bc nk now = none := by
        simp only [getCurrentBlockNumber, hl]
        rw [if_neg hage]
      unfold cacheKeyFor
      rw [normalizeBlockTags_cold bc now nk r hcur]

/-- Claim C8, witness: with block 42 cached at 0 ms for `mainnet`, the
`eth_call`/`latest` request at 1000 ms is keyed by `0x2a` (the key
contains `0x2a` and not `latest`); at 40000 ms the entry is stale and the
key is computed from the raw request. -/
theorem c8_latest_normalized_cache_key_witness :
    cacheKeyFor c8Blocks 1000 (some "mainnet") c8Req =
      "mainnet:" ++ getCacheKey
        ⟨"eth_call", some [Json.obj [("to", Json.str "0xabc")], Json.str "0x2a"],
          some (Json.num 1)⟩ ∧
    cacheKeyFor c8Blocks 1000 (some "mainnet") c8Req =
      "mainnet:eth_call:[\x7b\"to\":\"0xabc\"\x7d,\"0x2a\"]" ∧
    containsSubstr "0x2a" (cacheKeyFor c8Blocks 1000 (some "mainnet") c8Req) = true ∧
    containsSubstr "latest" (cacheKeyFor c8Blocks 1000 (some "mainnet") c8Req) = false ∧
    cacheKeyFor c8Blocks 40000 (some "mainnet") c8Req = "mainnet:" ++ getCacheKey c8Req := by
  refine ⟨?_, by rfl, by decide, by decide, ?_⟩
  · exact ((c8_latest_normalized_cache_key c8Blocks 1000 (some "mainnet") c8Req _ ⟨42, 0⟩
      rfl rfl (by decide) rfl).1 rfl (by decide) (by decide)).1
  · exact (c8_latest_normalized_cache_key c8Blocks 40000 (some "mainnet") c8Req _ ⟨42, 0⟩
      rfl rfl (by decide) rfl).2.1
      (fun e2 he => by injection he with h1; rw [← h1]; decide)

/-- Claim C8, counterexample: a fresh cache entry holding block number 0
is falsy under the source's `if (currentBlock)` test, so the fresh
`eth_call`/`latest` request keeps `latest` in its cache key and the key
does not contain the hex block number `0x0` — refuting the claim that a
fresh entry always puts the hex-encoded cached block number in the key. -/
theorem c8_zero_block_counterexample :
    c8ZeroBlocks.lookup "mainnet" = some ⟨0, 0⟩ ∧
    getCurrentBlockNumber c8ZeroBlocks (some "mainnet") 1000 = some 0 ∧
    cacheKeyFor c8ZeroBlocks 1000 (some "mainnet") c8Req =
      "mainnet:eth_call:[\x7b\"to\":\"0xabc\"\x7d,\"latest\"]" ∧
    containsSubstr "latest" (cacheKeyFor c8ZeroBlocks 1000 (some "mainnet") c8Req) = true ∧
    containsSubstr ("0x" ++ toHex 0) (cacheKeyFor c8ZeroBlocks 1000 (some "mainnet") c8Req) =
      false :=
  ⟨rfl, rfl, rfl, by decide, by decide⟩

/-- Claim C9, counterexample: under the same fresh zero-block cache entry
the request is not rewritten, so the policy is resolved on the raw
`latest` request and yields the finite `maxAge` TTL, not the claimed
infinite one. -/
theorem c9_zero_block_counterexample :
    getCurrentBlockNumber c8ZeroBlocks (some "mainnet") 1000 = some 0 ∧
    normalizeBlockTags c8ZeroBlocks 1000 c8Req (some "mainnet") = c8Req ∧
    resolveCachePolicyForSubgraph 10
      (normalizeBlockTags c8ZeroBlocks 1000 c8Req (some "mainnet")) =
      (true, CacheTTL.finite 10000) ∧
    ((true, CacheTTL.finite 10000) : Bool × CacheTTL) ≠ (true, CacheTTL.infinite) :=
  ⟨rfl, rfl, rfl, by decide⟩

/-- Claim C9 (amended): the cache policy is resolved on the
block-tag-normalized request, so an `eth_call` on `latest`/`pending`
under a fresh block-number cache holding a nonzero block number is
classified infinitely cacheable (its normalized `params[1]` is a hex
string), while the raw request (no `blockHash` pin) would have been
time-cacheable with the configured `maxAge`; a fresh entry holding the
falsy block number 0 performs no rewrite, so the raw time-cacheable
policy applies. -/
theorem c9_latest_policy_infinite (bc : List (String × BlockEntry)) (now : Nat)
    (nk : Option String) (maxAge : Nat) (r : JSONRPCRequest) (ps : List Json)
    (entry : BlockEntry) (hm : r.method = "eth_call") (hp : r.params = some ps)
    (hlen : 2 ≤ ps.length)
    (htag : ps[1]? = some (Json.str "latest") ∨ ps[1]? = some (Json.str "pending"))
    (hl : bc.lookup (nk.getD "default") = some entry)
    (hage : now - entry.timestamp < 30000) (hnz : entry.blockNumber ≠ 0)
    (hbh : hasBlockHashProp ps = false) :
    resolveCachePolicyForSubgraph maxAge (normalizeBlockTags bc now r nk) =
      (true, CacheTTL.infinite) ∧
    resolveCachePolicyForSubgraph maxAge r = (true, CacheTTL.finite (maxAge * 1000)) := by
  have hcur : getCurrentBlockNumber bc nk now = some entry.blockNumber := by
    simp [getCurrentBlockNumber, hl, hage]
  have hnorm := normalizeBlockTags_fresh bc now nk r ps entry.blockNumber hm hp hlen htag
    hcur hnz
  have h1 : INFINITELY_CACHEABLE.contains "eth_call" = false := by decide
  have h2 : TIME_CACHEABLE.contains "eth_call" = true := by decide
  constructor
  · rw [hnorm]
    have hset1 : (ps.set 1 (Json.str ("0x" ++ toHex entry.blockNumber)))[1]? =
        some (Json.str ("0x" ++ toHex entry.blockNumber)) := by
      rw [List.getElem?_set_self]
      simp [show 1 < ps.length by omega]
    have h3 : hasHexBlockNumberAt1 (ps.set 1 (Json.str ("0x" ++ toHex entry.blockNumber))) =
        true := by
      unfold hasHexBlockNumberAt1
      rw [hset1]
      have hd : "0x".data = ['0', 'x'] := rfl
      simp [strStartsWith, String.data_append, hd, List.isPrefixOf]
    simp [resolveCachePolicyForSubgraph, hm, h1, h2, h3]
    exact fun _ => by decide
  · have h4 : hasHexBlockNumberAt1 ps = false := by
      unfold hasHexBlockNumberAt1
      rcases htag with htag | htag <;> rw [htag] <;> decide
    simp [resolveCachePolicyForSubgraph, hm, hp, h1, h2, h4, hbh]
    rw [if_neg (by decide), if_pos (by decide)]

/-- Claim C9, witness: the fresh-cache `eth_call`/`latest` request is
classified `(true, ∞)` after normalization, `(true, 10000 ms)` raw. -/
theorem c9_latest_policy_infinite_witness :
    resolveCachePolicyForSubgraph 10 (normalizeBlockTags c8Blocks 1000 c8Req (some "mainnet")) =
      (true, CacheTTL.infinite) ∧
    resolveCachePolicyForSubgraph 10 c8Req = (true, CacheTTL.finite 10000) :=
  c9_latest_policy_infinite c8Blocks 1000 (some "mainnet") 10 c8Req _ ⟨42, 0⟩
    rfl rfl (by decide) (Or.inl rfl) rfl (by decide) (by decide) (by decide)

/-- Helper: a key has a circuit breaker exactly when a configured network
entry (string or object with a `url`) carries that key. -/
theorem loadNetworkMap_keys_mem (k2 : String) : ∀ nets : List (String × NetCfg),
    k2 ∈ (loadNetworkMap nets).2 ↔ ∃ cfg, (k2, cfg) ∈ nets ∧ cfg ≠ NetCfg.bad := by
  intro nets
  induction nets with
  | nil => simp [loadNetworkMap]
  | cons kv rest ih =>
    obtain ⟨k3, cfg⟩ := kv
    cases cfg with
    | strUrl u =>
      simp only [loadNetworkMap, List.mem_cons, ih]
      constructor
      · rintro (rfl | ⟨cfg2, hmem, hbad⟩)
        · exact ⟨NetCfg.strUrl u, Or.inl rfl, by simp⟩
        · exact ⟨cfg2, Or.inr hmem, hbad⟩
      · rintro ⟨cfg2, hmem | hmem, hbad⟩
        · exact Or.inl (congrArg Prod.fst hmem)
        · exact Or.inr ⟨cfg2, hmem, hbad⟩
    | objUrl u =>
      simp only [loadNetworkMap, List.mem_cons, ih]
      constructor
      · rintro (rfl | ⟨cfg2, hmem, hbad⟩)
        · exact ⟨NetCfg.objUrl u, Or.inl rfl, by simp⟩
        · exact ⟨cfg2, Or.inr hmem, hbad⟩
      · rintro ⟨cfg2, hmem | hmem, hbad⟩
        · exact Or.inl (congrArg Prod.fst hmem)
        · exact Or.inr ⟨cfg2, hmem, hbad⟩
    | bad =>
      simp only [loadNetworkMap, List.mem_cons, ih]
      constructor
      · rintro ⟨cfg2, hmem, hbad⟩
        exact ⟨cfg2, Or.inr hmem, hbad⟩
      · rintro ⟨cfg2, hmem | hmem, hbad⟩
        · exact absurd (congrArg Prod.snd hmem) hbad
        · exact ⟨cfg2, hmem, hbad⟩

/-- Claim C10 (amended): the breaker map is populated exactly from the
configured network entries carrying a URL, and a request whose network key
has no entry in that map — in particular the root endpoint's `default` key
when no network named `default` is configured — runs the upstream call
with no circuit breaker and is never short-circuited, whatever the breaker
states are. -/
theorem c10_unmapped_key_no_breaker (nets : List (String × NetCfg))
    (bopen : String → Bool) (k : String)
    (h : ((loadNetworkMap nets).2.contains k) = false) :
    selectCircuitBreaker (loadNetworkMap nets).2 (some k) = none ∧
    upstreamCallExecutes bopen (loadNetworkMap nets).2 (some k) = true ∧
    (∀ k2, k2 ∈ (loadNetworkMap nets).2 ↔ ∃ cfg, (k2, cfg) ∈ nets ∧ cfg ≠ NetCfg.bad) := by
  have hsel : selectCircuitBreaker (loadNetworkMap nets).2 (some k) = none := by
    simp [selectCircuitBreaker]
    simpa using h
  exact ⟨hsel, by unfold upstreamCallExecutes; rw [hsel],
    fun k2 => loadNetworkMap_keys_mem k2 nets⟩

/-- Claim C10, witness: with only `mainnet` configured, a request under
the key `default` has no breaker and always reaches the upstream call. -/
theorem c10_unmapped_key_no_breaker_witness :
    selectCircuitBreaker (loadNetworkMap c10Nets).2 (some "default") = none ∧
    upstreamCallExecutes (fun _ => true) (loadNetworkMap c10Nets).2 (some "default") = true :=
  ⟨(c10_unmapped_key_no_breaker c10Nets (fun _ => true) "default" (by decide)).1,
   (c10_unmapped_key_no_breaker c10Nets (fun _ => true) "default" (by decide)).2.1⟩

/-- Claim C10, counterexample: configuring a network literally named
`default` puts `default` in the breaker map, so a root-endpoint request
(network key `default`) is breaker-guarded and is short-circuited when
that breaker is open — refuting the claim that requests under `default`
always execute with no circuit breaker. -/
theorem c10_default_network_breaker_counterexample :
    selectCircuitBreaker (loadNetworkMap c10DefaultNets).2 (some "default") = some "default" ∧
    upstreamCallExecutes (fun _ => true) (loadNetworkMap c10DefaultNets).2 (some "default") =
      false :=
  ⟨rfl, rfl⟩
